import Mathlib

/-!
Verification of the score-storage API of the asteroids repository
(src/api/src/api.py, src/api/src/db.py) and of the polygon-recentring
utility (src/tools/translate_model.py).

The database is modelled as the list of its rows in insertion order
together with the next auto-increment id.  JSON values reaching the
handler through flask.request.get_json() are modelled by an inductive
type; Python's built-in int() coercion is modelled by pyInt below.
-/

/-- A parsed JSON value, the result of flask.request.get_json().
JSON numbers with a fractional part are carried as exact rationals. -/
inductive JVal where
  | jnull : JVal
  | jbool : Bool → JVal
  | jint : Int → JVal
  | jnum : ℚ → JVal
  | jstr : String → JVal
  | jarr : List JVal → JVal
  | jobj : List (String × JVal) → JVal

/-- True exactly on JSON objects (Python dicts after get_json()). -/
def JVal.isObj : JVal → Bool
  | .jobj _ => true
  | _ => false

/-- The two Python exception classes that int() can raise, plus the
KeyError raised by a dict subscript on a missing key.  Only ValueError
is caught by handle_score_request. -/
inductive PyExc where
  | valueError : PyExc
  | typeError : PyExc
  | keyError : PyExc
deriving DecidableEq

/-- Whitespace accepted by Python's int() around a numeric string
(the ASCII whitespace stripped by str.strip()). -/
def pyWs (c : Char) : Bool :=
  c == ' ' || c == '\t' || c == '\n' || c == '\r' ||
  c == Char.ofNat 11 || c == Char.ofNat 12

/-- Strip pyWs characters from both ends of a character list. -/
def stripWs (cs : List Char) : List Char :=
  ((cs.dropWhile pyWs).reverse.dropWhile pyWs).reverse

/-- Value of a list of decimal digit characters, most significant first. -/
def digitsToNat (cs : List Char) : Nat :=
  cs.foldl (fun a c => 10 * a + (c.toNat - 48)) 0

/-- A nonempty run of ASCII decimal digits, or none. -/
def parseDigits (cs : List Char) : Option Nat :=
  if cs.isEmpty then none
  else if cs.all Char.isDigit then some (digitsToNat cs) else none

/-- Python int(s) for a string s: optional surrounding whitespace, an
optional sign, then a nonempty run of decimal digits; anything else
raises ValueError.  (Underscore separators and non-ASCII digits, which
Python also accepts, are not exercised by this API and are omitted.)
pySigned handles the part after whitespace stripping: an optional sign
followed by the digits. -/
def pySigned (c : Char) (rest : List Char) : Except PyExc Int :=
  if c = '+' then
    (parseDigits rest).elim (.error .valueError) (fun n => .ok (n : Int))
  else if c = '-' then
    (parseDigits rest).elim (.error .valueError) (fun n => .ok (-(n : Int)))
  else
    (parseDigits (c :: rest)).elim (.error .valueError) (fun n => .ok (n : Int))

/-- Python int(s) on a string: strip whitespace, then parse a signed
decimal numeral; see pySigned. -/
def pyIntOfStr (s : String) : Except PyExc Int :=
  match stripWs s.data with
  | [] => .error .valueError
  | c :: rest => pySigned c rest

/-- Python int(x) on a JSON value: ints are returned unchanged, floats
are truncated toward zero, strings are parsed in decimal, booleans give
0 or 1; int(None), int(list) and int(dict) raise TypeError. -/
def pyInt : JVal → Except PyExc Int
  | .jint n => .ok n
  | .jnum q => .ok (q.num.tdiv (q.den : Int))
  | .jstr s => pyIntOfStr s
  | .jbool b => .ok (if b then 1 else 0)
  | .jnull => .error .typeError
  | .jarr _ => .error .typeError
  | .jobj _ => .error .typeError

/-- One row of the Score table of src/api/src/db.py: an auto-increment
primary key and the token, name and score columns.  The name column
receives data of the name key of the request body unchanged, so it is
kept as a JSON value. -/
structure Score where
  id : Nat
  token : String
  name : JVal
  score : Int

/-- The database: rows in insertion order plus the next fresh id. -/
structure DB where
  rows : List Score
  nextId : Nat

/-- The database of a fresh deployment (SQLAlchemy autoincrement starts at 1). -/
def dbEmpty : DB := ⟨[], 1⟩

/-- db.add_new_entry: inserts one new Score row and commits. -/
def add_new_entry (db : DB) (token : String) (name : JVal) (score : Int) : DB :=
  { rows := db.rows ++ [⟨db.nextId, token, name, score⟩]
    nextId := db.nextId + 1 }

/-- One element of the list built by db.get_scores_for: the dict with
the name and score keys of a matching row. -/
structure SEntry where
  name : JVal
  score : Int

/-- db.get_scores_for: the loop appending, for each row whose token
column equals the argument, the dict of its name and score. -/
def get_scores_for (db : DB) (token : String) : List SEntry :=
  db.rows.foldl
    (fun results s => if s.token == token then results ++ [⟨s.name, s.score⟩] else results)
    []

/-- flask.jsonify of the list returned by get_scores_for. -/
def jsonOfScores (l : List SEntry) : JVal :=
  .jarr (l.map fun e => .jobj [("name", e.name), ("score", .jint e.score)])

/-- An incoming request to /api/token/scores: the route accepts GET,
and POST carrying a JSON body. -/
inductive Req where
  | get : Req
  | post : JVal → Req

/-- The pair returned by the handler: flask.jsonify(response), status_code. -/
structure Resp where
  status : Nat
  body : JVal

/-- api.handle_score_request: on POST it reads data of the name key,
coerces data of the score key with int() and appends a row, catching
only ValueError (which sets status 500 and skips the append); in every
caught case it then serializes get_scores_for(token).  A non-dict body,
a missing key, or an int() TypeError escapes uncaught.  The result is
either the uncaught exception or the response with the new database. -/
def handle_score_request (db : DB) (token : String) (req : Req) :
    Except PyExc (Resp × DB) :=
  match req with
  | .get => .ok (⟨200, jsonOfScores (get_scores_for db token)⟩, db)
  | .post body =>
    match body with
    | .jobj fields =>
      match fields.lookup "name" with
      | none => .error .keyError
      | some nameVal =>
        match fields.lookup "score" with
        | none => .error .keyError
        | some scoreVal =>
          match pyInt scoreVal with
          | .ok s =>
            let db2 := add_new_entry db token nameVal s
            .ok (⟨200, jsonOfScores (get_scores_for db2 token)⟩, db2)
          | .error .valueError =>
            .ok (⟨500, jsonOfScores (get_scores_for db token)⟩, db)
          | .error e => .error e
    | _ => .error .typeError

/-- Truncation of a rational toward zero, as described by the spec of
Python's int() on floats. -/
def truncTowardZero (q : ℚ) : Int :=
  if 0 ≤ q then ⌊q⌋ else ⌈q⌉

/-- The spec's description of listByToken: all records whose token
field exactly equals the argument, in insertion order, projected to
their name and score. -/
def listByToken_spec (db : DB) (token : String) : List SEntry :=
  (db.rows.filter (fun s => s.token == token)).map (fun s => ⟨s.name, s.score⟩)

/-- Iterated add_new_entry with a fixed token. -/
def appendMany (db : DB) (token : String) (entries : List (JVal × Int)) : DB :=
  entries.foldl (fun d e => add_new_entry d token e.1 e.2) db

/-- The store invariant: row ids are pairwise distinct and all lie
below the next auto-increment id. -/
def DBWellFormed (db : DB) : Prop :=
  (db.rows.map Score.id).Nodup ∧ ∀ r ∈ db.rows, r.id < db.nextId

theorem get_scores_foldl_acc (rows : List Score) (token : String) (acc : List SEntry) :
    rows.foldl
      (fun results s => if s.token == token then results ++ [⟨s.name, s.score⟩] else results)
      acc
    = acc ++ (rows.filter (fun s => s.token == token)).map (fun s => ⟨s.name, s.score⟩) := by
  induction rows generalizing acc with
  | nil => simp
  | cons r rs ih =>
    rw [List.foldl_cons]
    by_cases h : r.token = token
    · rw [if_pos (by simpa using h), ih, List.filter_cons_of_pos (by simpa using h),
        List.map_cons, List.append_assoc, List.singleton_append]
    · rw [if_neg (by simpa using h), ih, List.filter_cons_of_neg (by simpa using h)]

theorem get_scores_for_eq (db : DB) (token : String) :
    get_scores_for db token = listByToken_spec db token := by
  unfold get_scores_for listByToken_spec
  simpa using get_scores_foldl_acc db.rows token []

theorem get_scores_for_add (db : DB) (t t2 : String) (n : JVal) (s : Int) :
    get_scores_for (add_new_entry db t n s) t2
    = get_scores_for db t2 ++ if t == t2 then [⟨n, s⟩] else [] := by
  simp only [get_scores_for_eq, listByToken_spec, add_new_entry, List.filter_append,
    List.map_append]
  by_cases h : t = t2
  · simp [List.filter_cons, h]
  · simp [List.filter_cons, h]

theorem get_scores_for_nil (db : DB) (token : String)
    (h : ∀ r ∈ db.rows, ¬ r.token = token) :
    get_scores_for db token = [] := by
  rw [get_scores_for_eq, listByToken_spec]
  have : db.rows.filter (fun s => s.token == token) = [] := by
    rw [List.filter_eq_nil_iff]
    intro r hr
    simpa using h r hr
  rw [this, List.map_nil]

theorem digit_not_pyWs (c : Char) (h : c.isDigit = true) : pyWs c = false := by
  simp only [pyWs, Bool.or_eq_false_iff, beq_eq_false_iff_ne]
  refine ⟨⟨⟨⟨⟨?_, ?_⟩, ?_⟩, ?_⟩, ?_⟩, ?_⟩ <;> rintro rfl <;> exact absurd h (by decide)

theorem digit_ne_sign (c : Char) (h : c.isDigit = true) : c ≠ '+' ∧ c ≠ '-' := by
  constructor <;> rintro rfl <;> exact absurd h (by decide)

theorem dropWhile_pyWs_digits (cs : List Char) (h : cs.all Char.isDigit = true) :
    cs.dropWhile pyWs = cs := by
  cases cs with
  | nil => rfl
  | cons c rest =>
    have hc : c.isDigit = true := by
      rw [List.all_cons, Bool.and_eq_true] at h
      exact h.1
    rw [List.dropWhile_cons, digit_not_pyWs c hc]
    simp

theorem stripWs_digits (cs : List Char) (h : cs.all Char.isDigit = true) :
    stripWs cs = cs := by
  unfold stripWs
  rw [dropWhile_pyWs_digits cs h, dropWhile_pyWs_digits cs.reverse (by simpa using h),
    List.reverse_reverse]

theorem pyIntOfStr_digits (s : String) (h1 : s.data ≠ [])
    (h2 : ∀ c ∈ s.data, c.isDigit = true) :
    pyIntOfStr s = .ok ((digitsToNat s.data : Nat) : Int) := by
  have hall : s.data.all Char.isDigit = true := List.all_eq_true.mpr h2
  obtain ⟨c, rest, hd⟩ : ∃ c rest, s.data = c :: rest := by
    cases hcs : s.data with
    | nil => exact absurd hcs h1
    | cons c rest => exact ⟨c, rest, rfl⟩
  have hc : c.isDigit = true := h2 c (by rw [hd]; exact List.mem_cons_self c rest)
  unfold pyIntOfStr
  rw [stripWs_digits s.data hall, hd]
  show pySigned c rest = Except.ok ((digitsToNat (c :: rest) : Nat) : Int)
  rw [pySigned, if_neg (digit_ne_sign c hc).1, if_neg (digit_ne_sign c hc).2, parseDigits]
  rw [hd] at hall
  simp [hall]

theorem tdiv_floor_of_nonneg (q : ℚ) (h : 0 ≤ q) : q.num.tdiv (q.den : Int) = ⌊q⌋ := by
  have hnum : 0 ≤ q.num := Rat.num_nonneg.mpr h
  have hden : (0 : Int) ≤ (q.den : Int) := Int.natCast_nonneg _
  have hfl : ⌊q⌋ = q.num / (q.den : Int) := by
    conv_lhs => rw [← Rat.num_div_den q]
    exact Rat.floor_intCast_div_natCast q.num q.den
  rw [Int.tdiv_eq_ediv hnum hden, hfl]

theorem tdiv_eq_truncTowardZero (q : ℚ) : q.num.tdiv (q.den : Int) = truncTowardZero q := by
  by_cases h : 0 ≤ q
  · rw [truncTowardZero, if_pos h, tdiv_floor_of_nonneg q h]
  · have hq2 : 0 ≤ -q := by linarith [lt_of_not_le h]
    have hneg : (-q).num.tdiv ((-q).den : Int) = ⌊-q⌋ := tdiv_floor_of_nonneg (-q) hq2
    rw [Rat.neg_num, Rat.neg_den, Int.neg_tdiv] at hneg
    rw [truncTowardZero, if_neg h, ← neg_eq_iff_eq_neg.mpr hneg.symm]
    rw [Int.floor_neg]
    ring

theorem get_scores_appendMany (db : DB) (t : String) (es : List (JVal × Int)) :
    get_scores_for (appendMany db t es) t
      = get_scores_for db t ++ es.map (fun e => SEntry.mk e.1 e.2) := by
  induction es generalizing db with
  | nil => simp [appendMany]
  | cons e es ih =>
    show get_scores_for (appendMany (add_new_entry db t e.1 e.2) t es) t = _
    rw [ih, get_scores_for_add]
    simp

/-- C2: after append(t, n, s) the list for t ends with the entry
{name: n, score: s}; starting from a state with no records for t,
k appends for t yield exactly those k entries in call order. -/
theorem C2_append_then_listByToken :
    (∀ (db : DB) (t : String) (n : JVal) (s : Int),
      (get_scores_for (add_new_entry db t n s) t).getLast? = some ⟨n, s⟩) ∧
    (∀ (db : DB) (t : String) (es : List (JVal × Int)),
      get_scores_for db t = [] →
      get_scores_for (appendMany db t es) t = es.map (fun e => SEntry.mk e.1 e.2) ∧
      (get_scores_for (appendMany db t es) t).length = es.length) := by
  constructor
  · intro db t n s
    rw [get_scores_for_add]
    simp
  · intro db t es h0
    have h := get_scores_appendMany db t es
    rw [h0, List.nil_append] at h
    exact ⟨h, by rw [h, List.length_map]⟩

/-- C2 witness: two appends for token tok1 from the empty database give
the two entries in call order, the second being the last. -/
theorem C2_append_then_listByToken_witness :
    (get_scores_for (add_new_entry dbEmpty "tok1" (.jstr "Ann") 100) "tok1").getLast?
      = some ⟨.jstr "Ann", 100⟩ ∧
    get_scores_for (appendMany dbEmpty "tok1" [(.jstr "Ann", 100), (.jstr "Bea", 90)]) "tok1"
      = [⟨.jstr "Ann", 100⟩, ⟨.jstr "Bea", 90⟩] ∧
    (get_scores_for (appendMany dbEmpty "tok1" [(.jstr "Ann", 100), (.jstr "Bea", 90)]) "tok1").length
      = 2 := by
  refine ⟨C2_append_then_listByToken.1 dbEmpty "tok1" (.jstr "Ann") 100, ?_, ?_⟩
  · exact (C2_append_then_listByToken.2 dbEmpty "tok1"
      [(.jstr "Ann", 100), (.jstr "Bea", 90)] rfl).1
  · exact (C2_append_then_listByToken.2 dbEmpty "tok1"
      [(.jstr "Ann", 100), (.jstr "Bea", 90)] rfl).2

/-- C3: a GET request always answers 200 with the JSON array of the
current records for the token, and a token with no records (a token
never written included) gives 200 with an empty JSON array, no error. -/
theorem C3_get_returns_current_list (db : DB) (t : String) :
    handle_score_request db t .get
      = .ok (⟨200, jsonOfScores (get_scores_for db t)⟩, db) ∧
    ((∀ r ∈ db.rows, r.token ≠ t) →
      handle_score_request db t .get = .ok (⟨200, .jarr []⟩, db)) := by
  refine ⟨rfl, ?_⟩
  intro h
  have hnil := get_scores_for_nil db t h
  show Except.ok (⟨200, jsonOfScores (get_scores_for db t)⟩, db)
    = (.ok (⟨200, .jarr []⟩, db) : Except PyExc (Resp × DB))
  rw [hnil]
  rfl

/-- C3 witness: a GET for a never-written token on the empty database. -/
theorem C3_get_returns_current_list_witness :
    handle_score_request dbEmpty "ghost" .get = .ok (⟨200, .jarr []⟩, dbEmpty) :=
  (C3_get_returns_current_list dbEmpty "ghost").2 (by intro r hr; simp [dbEmpty] at hr)

/-- C4: token isolation: appending for a token t1 leaves the list of
every other token t2 unchanged. -/
theorem C4_token_isolation (db : DB) (t1 t2 : String) (n : JVal) (s : Int)
    (h : t1 ≠ t2) :
    get_scores_for (add_new_entry db t1 n s) t2 = get_scores_for db t2 := by
  rw [get_scores_for_add]
  have hb : (t1 == t2) = false := beq_eq_false_iff_ne.mpr h
  simp [hb]

/-- C4 witness: a write for tok1 does not change the list for tok2. -/
theorem C4_token_isolation_witness :
    get_scores_for (add_new_entry dbEmpty "tok1" (.jstr "Ann") 100) "tok2"
      = get_scores_for dbEmpty "tok2" :=
  C4_token_isolation dbEmpty "tok1" "tok2" (.jstr "Ann") 100 (by decide)

/-- C5: add_new_entry is the only mutation and it only adds: every
existing row is unchanged at its position, exactly one row is added at
the end carrying the fresh id, and well-formedness (distinct, immutable
ids below the auto-increment counter) is preserved. -/
theorem C5_append_only_invariant (db : DB) (t : String) (n : JVal) (s : Int) :
    (∀ i, i < db.rows.length →
      (add_new_entry db t n s).rows[i]? = db.rows[i]?) ∧
    (add_new_entry db t n s).rows.length = db.rows.length + 1 ∧
    (add_new_entry db t n s).rows[db.rows.length]? = some ⟨db.nextId, t, n, s⟩ ∧
    (DBWellFormed db → DBWellFormed (add_new_entry db t n s)) := by
  refine ⟨?_, ?_, ?_, ?_⟩
  · intro i hi
    exact List.getElem?_append_left hi
  · simp [add_new_entry]
  · exact List.getElem?_concat_length db.rows (Score.mk db.nextId t n s)
  · rintro ⟨hnd, hlt⟩
    constructor
    · show ((db.rows ++ [Score.mk db.nextId t n s]).map Score.id).Nodup
      rw [List.map_append, List.map_cons, List.map_nil]
      rw [List.nodup_append]
      refine ⟨hnd, List.nodup_singleton _, ?_⟩
      intro x hx hx2
      rw [List.mem_singleton] at hx2
      obtain ⟨r, hr, hrid⟩ := List.mem_map.mp hx
      rw [hx2] at hrid
      have hrid2 : r.id = db.nextId := hrid
      exact absurd (hrid2 ▸ hlt r hr) (lt_irrefl db.nextId)
    · intro r hr
      rcases List.mem_append.mp hr with hr1 | hr2
      · exact Nat.lt_succ_of_lt (hlt r hr1)
      · rw [List.mem_singleton] at hr2
        rw [hr2]
        exact Nat.lt_succ_self _
/-- C5 witness: appending to a well-formed one-row database keeps the
old row in place, adds the new row at the end and stays well-formed. -/
theorem C5_append_only_invariant_witness :
    (add_new_entry ⟨[⟨1, "tok1", .jstr "Ann", 100⟩], 2⟩ "tok2" (.jstr "Bea") 90).rows[0]?
      = some ⟨1, "tok1", .jstr "Ann", 100⟩ ∧
    (add_new_entry ⟨[⟨1, "tok1", .jstr "Ann", 100⟩], 2⟩ "tok2" (.jstr "Bea") 90).rows.length = 2 ∧
    (add_new_entry ⟨[⟨1, "tok1", .jstr "Ann", 100⟩], 2⟩ "tok2" (.jstr "Bea") 90).rows[1]?
      = some ⟨2, "tok2", .jstr "Bea", 90⟩ ∧
    DBWellFormed (add_new_entry ⟨[⟨1, "tok1", .jstr "Ann", 100⟩], 2⟩ "tok2" (.jstr "Bea") 90) := by
  have h := C5_append_only_invariant ⟨[⟨1, "tok1", .jstr "Ann", 100⟩], 2⟩ "tok2" (.jstr "Bea") 90
  refine ⟨h.1 0 (by decide), h.2.1, h.2.2.1, h.2.2.2 ?_⟩
  constructor
  · simp
  · intro r hr
    rw [List.mem_singleton] at hr
    rw [hr]
    decide

/-- C6: get_scores_for returns exactly the rows whose token column
equals the argument, projected to name and score, in insertion order,
and the empty list (not an error) when no row matches. -/
theorem C6_listByToken_filter (db : DB) (t : String) :
    get_scores_for db t = listByToken_spec db t ∧
    ((∀ r ∈ db.rows, r.token ≠ t) → get_scores_for db t = []) :=
  ⟨get_scores_for_eq db t, get_scores_for_nil db t⟩

/-- C6 witness: on a two-row database only the matching row is kept. -/
theorem C6_listByToken_filter_witness :
    get_scores_for ⟨[⟨1, "tok1", .jstr "Ann", 100⟩, ⟨2, "tok2", .jstr "Bea", 90⟩], 3⟩ "tok1"
      = listByToken_spec ⟨[⟨1, "tok1", .jstr "Ann", 100⟩, ⟨2, "tok2", .jstr "Bea", 90⟩], 3⟩ "tok1" ∧
    get_scores_for ⟨[⟨1, "tok1", .jstr "Ann", 100⟩, ⟨2, "tok2", .jstr "Bea", 90⟩], 3⟩ "ghost"
      = [] := by
  refine ⟨(C6_listByToken_filter _ "tok1").1, (C6_listByToken_filter _ "ghost").2 ?_⟩
  intro r hr
  rcases List.mem_cons.mp hr with h1 | h2
  · rw [h1]; decide
  · rw [List.mem_singleton] at h2
    rw [h2]; decide

/-- C7: a GET never modifies the store, and a second GET on the state
returned by the first gives the identical response. -/
theorem C7_get_idempotent (db : DB) (t : String) :
    handle_score_request db t .get
      = .ok (⟨200, jsonOfScores (get_scores_for db t)⟩, db) ∧
    (∀ (r : Resp) (db2 : DB), handle_score_request db t .get = .ok (r, db2) →
      db2 = db ∧ handle_score_request db2 t .get = .ok (r, db2)) := by
  refine ⟨rfl, ?_⟩
  intro r db2 h
  have h0 : (Except.ok (⟨200, jsonOfScores (get_scores_for db t)⟩, db)
      : Except PyExc (Resp × DB)) = .ok (r, db2) := h
  injection h0 with h1
  obtain ⟨h2, h3⟩ := Prod.mk.injEq _ _ _ _ ▸ h1
  subst h3
  subst h2
  exact ⟨rfl, rfl⟩

/-- C7 witness: two consecutive GETs on the empty database. -/
theorem C7_get_idempotent_witness :
    dbEmpty = dbEmpty ∧
    handle_score_request dbEmpty "tok1" .get = .ok (⟨200, .jarr []⟩, dbEmpty) :=
  (C7_get_idempotent dbEmpty "tok1").2 ⟨200, .jarr []⟩ dbEmpty rfl

/-- C1 counterexample: a POST body whose score is null fails integer
coercion (int(None) raises TypeError), yet the handler does not answer
500 with the current list: the exception escapes uncaught, because only
ValueError is caught. -/
theorem C1_counterexample :
    pyInt JVal.jnull = .error PyExc.typeError ∧
    handle_score_request dbEmpty "tok1"
        (.post (.jobj [("name", .jstr "Ann"), ("score", JVal.jnull)]))
      = .error PyExc.typeError := ⟨rfl, rfl⟩

/-- C1 (amended): for every POST whose score value fails integer
coercion with a ValueError (e.g. a non-numeric string), the handler
answers 500, appends nothing, and the body is the JSON serialization of
the unchanged stored list for the token. -/
theorem C1_malformed_score_returns_500 (db : DB) (t : String)
    (fields : List (String × JVal)) (nameVal scoreVal : JVal)
    (hn : fields.lookup "name" = some nameVal)
    (hs : fields.lookup "score" = some scoreVal)
    (hv : pyInt scoreVal = .error .valueError) :
    handle_score_request db t (.post (.jobj fields))
      = .ok (⟨500, jsonOfScores (get_scores_for db t)⟩, db) := by
  unfold handle_score_request
  simp only [hn, hs, hv]

/-- C1 witness: the spec scenario, a POST with score "oops" on the
empty database answers 500 with the serialized (empty) current list. -/
theorem C1_malformed_score_returns_500_witness :
    handle_score_request dbEmpty "tok1"
        (.post (.jobj [("name", .jstr "Bea"), ("score", .jstr "oops")]))
      = .ok (⟨500, jsonOfScores (get_scores_for dbEmpty "tok1")⟩, dbEmpty) :=
  C1_malformed_score_returns_500 dbEmpty "tok1"
    [("name", .jstr "Bea"), ("score", .jstr "oops")] (.jstr "Bea") (.jstr "oops")
    rfl rfl rfl

/-- C8: the handler catches only ValueError: a non-object body, a body
without a name key, a body without a score key, and a score on which
int() raises TypeError all escape as uncaught exceptions instead of the
500-with-current-list response. -/
theorem C8_only_valueError_is_caught :
    (∀ (db : DB) (t : String) (b : JVal), b.isObj = false →
      handle_score_request db t (.post b) = .error PyExc.typeError) ∧
    (∀ (db : DB) (t : String) (fields : List (String × JVal)),
      fields.lookup "name" = none →
      handle_score_request db t (.post (.jobj fields)) = .error PyExc.keyError) ∧
    (∀ (db : DB) (t : String) (fields : List (String × JVal)) (nv : JVal),
      fields.lookup "name" = some nv → fields.lookup "score" = none →
      handle_score_request db t (.post (.jobj fields)) = .error PyExc.keyError) ∧
    (∀ (db : DB) (t : String) (fields : List (String × JVal)) (nv sv : JVal),
      fields.lookup "name" = some nv → fields.lookup "score" = some sv →
      pyInt sv = .error PyExc.typeError →
      handle_score_request db t (.post (.jobj fields)) = .error PyExc.typeError) := by
  refine ⟨?_, ?_, ?_, ?_⟩
  · intro db t b hb
    cases b with
    | jobj fields => simp [JVal.isObj] at hb
    | jnull => rfl
    | jbool b => rfl
    | jint n => rfl
    | jnum q => rfl
    | jstr s => rfl
    | jarr xs => rfl
  · intro db t fields hn
    unfold handle_score_request
    simp only [hn]
  · intro db t fields nv hn hs
    unfold handle_score_request
    simp only [hn, hs]
  · intro db t fields nv sv hn hs hv
    unfold handle_score_request
    simp only [hn, hs, hv]

/-- C8 witness: a null body, an empty object, an object without score,
and a null score on the empty database each raise uncaught. -/
theorem C8_only_valueError_is_caught_witness :
    handle_score_request dbEmpty "tok1" (.post .jnull) = .error PyExc.typeError ∧
    handle_score_request dbEmpty "tok1" (.post (.jobj [])) = .error PyExc.keyError ∧
    handle_score_request dbEmpty "tok1" (.post (.jobj [("name", .jstr "Ann")]))
      = .error PyExc.keyError ∧
    handle_score_request dbEmpty "tok1"
        (.post (.jobj [("name", .jstr "Ann"), ("score", .jarr [])]))
      = .error PyExc.typeError :=
  ⟨C8_only_valueError_is_caught.1 dbEmpty "tok1" .jnull rfl,
   C8_only_valueError_is_caught.2.1 dbEmpty "tok1" [] rfl,
   C8_only_valueError_is_caught.2.2.1 dbEmpty "tok1" [("name", .jstr "Ann")]
     (.jstr "Ann") rfl rfl,
   C8_only_valueError_is_caught.2.2.2 dbEmpty "tok1"
     [("name", .jstr "Ann"), ("score", .jarr [])] (.jstr "Ann") (.jarr []) rfl rfl rfl⟩

/-- C9: integer coercion of score is Python int(): a score that is a
string of decimal digits is accepted with status 200 and its decimal
value stored as the appended entry, and a fractional score is accepted
with the value truncated toward zero stored as the appended entry. -/
theorem C9_int_coercion_semantics :
    (∀ (db : DB) (t : String) (fields : List (String × JVal)) (nv : JVal) (d : String),
      fields.lookup "name" = some nv →
      fields.lookup "score" = some (.jstr d) →
      d.data ≠ [] → (∀ c ∈ d.data, c.isDigit = true) →
      handle_score_request db t (.post (.jobj fields))
        = .ok (⟨200, jsonOfScores
                 (get_scores_for (add_new_entry db t nv (digitsToNat d.data : Int)) t)⟩,
               add_new_entry db t nv (digitsToNat d.data : Int)) ∧
      get_scores_for (add_new_entry db t nv (digitsToNat d.data : Int)) t
        = get_scores_for db t ++ [⟨nv, (digitsToNat d.data : Int)⟩]) ∧
    (∀ (db : DB) (t : String) (fields : List (String × JVal)) (nv : JVal) (q : ℚ),
      fields.lookup "name" = some nv →
      fields.lookup "score" = some (.jnum q) →
      q.den ≠ 1 →
      handle_score_request db t (.post (.jobj fields))
        = .ok (⟨200, jsonOfScores
                 (get_scores_for (add_new_entry db t nv (truncTowardZero q)) t)⟩,
               add_new_entry db t nv (truncTowardZero q)) ∧
      get_scores_for (add_new_entry db t nv (truncTowardZero q)) t
        = get_scores_for db t ++ [⟨nv, truncTowardZero q⟩]) := by
  have hlast : ∀ (db : DB) (t : String) (nv : JVal) (v : Int),
      get_scores_for (add_new_entry db t nv v) t
        = get_scores_for db t ++ [⟨nv, v⟩] := by
    intro db t nv v
    rw [get_scores_for_add]
    simp
  constructor
  · intro db t fields nv d hn hs h1 h2
    have hv : pyInt (.jstr d) = .ok ((digitsToNat d.data : Nat) : Int) := by
      show pyIntOfStr d = _
      exact pyIntOfStr_digits d h1 h2
    refine ⟨?_, hlast db t nv _⟩
    unfold handle_score_request
    simp only [hn, hs, hv]
  · intro db t fields nv q hn hs hden
    have hv : pyInt (.jnum q) = .ok (truncTowardZero q) := by
      show Except.ok (q.num.tdiv (q.den : Int)) = _
      rw [tdiv_eq_truncTowardZero]
    refine ⟨?_, hlast db t nv _⟩
    unfold handle_score_request
    simp only [hn, hs, hv]

/-- C9 witness: a POST with score "100" stores the integer 100, and a
POST with score 100.7 stores truncTowardZero 100.7 = 100. -/
theorem C9_int_coercion_semantics_witness :
    (handle_score_request dbEmpty "tok1"
        (.post (.jobj [("name", .jstr "Ann"), ("score", .jstr "100")]))
      = .ok (⟨200, jsonOfScores
               (get_scores_for (add_new_entry dbEmpty "tok1" (.jstr "Ann") 100) "tok1")⟩,
             add_new_entry dbEmpty "tok1" (.jstr "Ann") 100) ∧
     get_scores_for (add_new_entry dbEmpty "tok1" (.jstr "Ann") 100) "tok1"
       = get_scores_for dbEmpty "tok1" ++ [⟨.jstr "Ann", 100⟩]) ∧
    (handle_score_request dbEmpty "tok1"
        (.post (.jobj [("name", .jstr "Bea"), ("score", .jnum (mkRat 1007 10))]))
      = .ok (⟨200, jsonOfScores
               (get_scores_for (add_new_entry dbEmpty "tok1" (.jstr "Bea")
                  (truncTowardZero (mkRat 1007 10))) "tok1")⟩,
             add_new_entry dbEmpty "tok1" (.jstr "Bea") (truncTowardZero (mkRat 1007 10))) ∧
     get_scores_for (add_new_entry dbEmpty "tok1" (.jstr "Bea")
         (truncTowardZero (mkRat 1007 10))) "tok1"
       = get_scores_for dbEmpty "tok1" ++ [⟨.jstr "Bea", truncTowardZero (mkRat 1007 10)⟩]) :=
  ⟨C9_int_coercion_semantics.1 dbEmpty "tok1"
     [("name", .jstr "Ann"), ("score", .jstr "100")] (.jstr "Ann") "100"
     rfl rfl (by decide) (by decide),
   C9_int_coercion_semantics.2 dbEmpty "tok1"
     [("name", .jstr "Bea"), ("score", .jnum (mkRat 1007 10))] (.jstr "Bea") (mkRat 1007 10)
     rfl rfl (by decide)⟩

/-- The active vertex list of src/tools/translate_model.py
(vertices = vertices1). -/
def vertices1 : List (Int × Int) :=
  [(77, 231), (73, 216), (89, 204), (101, 212), (116, 208), (129, 224),
   (114, 228), (125, 246), (109, 265), (90, 255), (82, 261), (70, 245)]

/-- Squared Euclidean distance between two integer points.  The script
computes the distance as this quantity raised to the power 0.5 and
compares with strict greater-than; the square root is strictly
increasing on nonnegative reals, so comparing squared distances selects
the same vertex and keeps the embedding exact over the integers. -/
def sqDist (v a : Int × Int) : Int :=
  (v.1 - a.1) * (v.1 - a.1) + (v.2 - a.2) * (v.2 - a.2)

/-- The selection loop of the script: the running maximum (as a squared
distance, initially 0) and the vertex attaining it (initially (0, 0)),
updated only on strictly greater distance. -/
def scanOpposite (vs : List (Int × Int)) (anchor : Int × Int) : Int × (Int × Int) :=
  vs.foldl
    (fun st v => if st.1 < sqDist v anchor then (sqDist v anchor, v) else st)
    (0, (0, 0))

/-- anchor_point = vertices[0]. -/
def anchor_point : Int × Int := vertices1.headD (0, 0)

/-- opposite_point: the vertex selected by the scan. -/
def opposite_point : Int × Int := (scanOpposite vertices1 anchor_point).2

/-- difference = (anchor - opposite) / 2, componentwise. -/
def difference : ℚ × ℚ :=
  (((anchor_point.1 - opposite_point.1 : Int) : ℚ) / 2,
   ((anchor_point.2 - opposite_point.2 : Int) : ℚ) / 2)

/-- translation = anchor - difference, componentwise. -/
def translation : ℚ × ℚ :=
  ((anchor_point.1 : ℚ) - difference.1, (anchor_point.2 : ℚ) - difference.2)

/-- The coordinates printed by the final loop: each vertex minus the
translation. -/
def new_coordinates : List (ℚ × ℚ) :=
  vertices1.map (fun v => ((v.1 : ℚ) - translation.1, (v.2 : ℚ) - translation.2))

/-- C10: the computed translation is the midpoint of the first vertex
and the selected opposite vertex; the opposite vertex is a vertex of
the polygon at maximal (squared) distance from the first vertex, and
the first such vertex in list order; each printed coordinate is the
corresponding vertex minus the translation, componentwise. -/
theorem C10_translate_model_recentring :
    translation.1 = ((anchor_point.1 + opposite_point.1 : Int) : ℚ) / 2 ∧
    translation.2 = ((anchor_point.2 + opposite_point.2 : Int) : ℚ) / 2 ∧
    opposite_point ∈ vertices1 ∧
    vertices1.all
      (fun v => decide (sqDist v anchor_point ≤ sqDist opposite_point anchor_point))
      = true ∧
    vertices1.find?
      (fun v => sqDist v anchor_point == sqDist opposite_point anchor_point)
      = some opposite_point ∧
    new_coordinates
      = vertices1.map (fun v => ((v.1 : ℚ) - translation.1, (v.2 : ℚ) - translation.2)) := by
  refine ⟨?_, ?_, by decide, by decide, by decide, rfl⟩
  · show (anchor_point.1 : ℚ) - ((anchor_point.1 - opposite_point.1 : Int) : ℚ) / 2
      = ((anchor_point.1 + opposite_point.1 : Int) : ℚ) / 2
    push_cast
    ring
  · show (anchor_point.2 : ℚ) - ((anchor_point.2 - opposite_point.2 : Int) : ℚ) / 2
      = ((anchor_point.2 + opposite_point.2 : Int) : ℚ) / 2
    push_cast
    ring
